import Mathlib

/-!
# AssetHound URL liveness-validation engine: a shallow embedding

This file embeds the core of the AssetHound repository (the URL
liveness-validation engine: `src/cache.ts` and `src/linkValidator.ts`)
into Lean 4 and proves or refutes the frozen claims about it.

Modelling conventions:
* JavaScript millisecond clocks (`Date.now()`) become an explicit `now : Nat`
  argument; `now - timestamp` on `Nat` agrees with the JS number subtraction
  on every reachable state (timestamps are written from the same clock, and
  when `now < timestamp` both sides classify the entry as fresh because the
  TTL is nonnegative).
* The JS `Map` becomes an association list with in-place overwrite,
  mirroring `Map.get` / `Map.set` / `Map.delete`.
* Network I/O is factored out: a probe's outcome is passed in, either as a
  response or as a thrown value, and the deterministic redirect-following
  plumbing of `makeRequest` is modelled over an explicit network function
  `net : String → HttpResponse` with a fuel argument (the source recursion
  has no structural termination measure).
* JS strings are Lean `String`s; `String.prototype.includes` is the
  substring test `strContains`, and `toLowerCase` is modelled by ASCII
  lowercasing (every string the engine matches on is ASCII).
-/

/-- Character-list prefix test, mirroring the start of a JS `includes` scan. -/
def charsStart : List Char → List Char → Bool
  | [], _ => true
  | _ :: _, [] => false
  | a :: as, b :: bs => a == b && charsStart as bs

/-- Character-list substring test. -/
def charsInfix (needle : List Char) : List Char → Bool
  | [] => charsStart needle []
  | b :: bs => charsStart needle (b :: bs) || charsInfix needle bs

/-- JS `hay.includes(needle)`. -/
def strContains (hay needle : String) : Bool :=
  charsInfix needle.toList hay.toList

/-- JS `s.startsWith(pre)`. -/
def strStarts (s pre : String) : Bool :=
  charsStart pre.toList s.toList

/-- JS `s.toLowerCase()` restricted to ASCII (all strings the engine
lowercases and matches on are ASCII). -/
def strLower (s : String) : String :=
  ⟨s.toList.map Char.toLower⟩

/-- `CacheEntry` of `src/cache.ts`: a validation outcome minus the URL, plus
the insertion timestamp. Optional JS fields become `Option`s. -/
structure CacheEntry where
  isValid : Bool
  statusCode : Option Nat := none
  statusText : Option String := none
  error : Option String := none
  timestamp : Nat
deriving DecidableEq, Repr

/-- The data handed to `UrlCache.set` (`Omit<CacheEntry, 'timestamp'>`). -/
structure CacheData where
  isValid : Bool
  statusCode : Option Nat := none
  statusText : Option String := none
  error : Option String := none
deriving DecidableEq, Repr

/-- JS `Map.get` on an association list. -/
def mapGet (m : List (String × CacheEntry)) (k : String) : Option CacheEntry :=
  match m with
  | [] => none
  | (k', v) :: rest => if k' = k then some v else mapGet rest k

/-- JS `Map.set`: overwrite in place when the key is present, append otherwise. -/
def mapSet (m : List (String × CacheEntry)) (k : String) (v : CacheEntry) :
    List (String × CacheEntry) :=
  match m with
  | [] => [(k, v)]
  | (k', v') :: rest => if k' = k then (k, v) :: rest else (k', v') :: mapSet rest k v

/-- JS `Map.delete`. -/
def mapDelete (m : List (String × CacheEntry)) (k : String) :
    List (String × CacheEntry) :=
  match m with
  | [] => []
  | (k', v') :: rest => if k' = k then rest else (k', v') :: mapDelete rest k

/-- `UrlCache` of `src/cache.ts`: a TTL-keyed map from URL strings to cached
validation outcomes. `ttlMs` is fixed at construction
(`ttlMinutes * 60 * 1000`). -/
structure UrlCache where
  ttlMs : Nat
  entries : List (String × CacheEntry)
deriving DecidableEq, Repr

/-- `new UrlCache(ttlMinutes)`. -/
def UrlCache.mk' (ttlMinutes : Nat) : UrlCache :=
  { ttlMs := ttlMinutes * 60 * 1000, entries := [] }

/-- `UrlCache.get`: return the entry if present and fresh; evict and return
nothing when the entry has expired (`now - timestamp > ttlMs`); no side
effect on a miss. Returns the result together with the updated cache. -/
def UrlCache.get (c : UrlCache) (url : String) (now : Nat) :
    Option CacheEntry × UrlCache :=
  match mapGet c.entries url with
  | none => (none, c)
  | some entry =>
    if now - entry.timestamp > c.ttlMs then
      (none, { c with entries := mapDelete c.entries url })
    else
      (some entry, c)

/-- `UrlCache.set`: insert or overwrite, stamping the current time. -/
def UrlCache.set (c : UrlCache) (url : String) (result : CacheData) (now : Nat) :
    UrlCache :=
  { c with
    entries := mapSet c.entries url
      { isValid := result.isValid, statusCode := result.statusCode,
        statusText := result.statusText, error := result.error,
        timestamp := now } }

/-- The response headers the engine inspects: `headers['content-type'] || ''`
(absent maps to the empty string, as in the source) and `headers.location`. -/
structure RespHeaders where
  contentType : String := ""
  location : Option String := none
deriving DecidableEq, Repr

/-- `HttpResponse` of `src/linkValidator.ts`: normalized response descriptor. -/
structure HttpResponse where
  statusCode : Nat
  statusText : String
  headers : RespHeaders
  body : String
deriving DecidableEq, Repr

/-- `ValidationResult` of `src/linkValidator.ts`. -/
structure ValidationResult where
  url : String
  isValid : Bool
  statusCode : Option Nat := none
  statusText : Option String := none
  error : Option String := none
deriving DecidableEq, Repr, Inhabited

/-- A value thrown by a probe: either an `Error` instance carrying a message,
or some non-`Error` value (JS can throw anything). -/
inductive Thrown where
  | err (message : String)
  | nonError
deriving DecidableEq, Repr

/-- `BROKEN_STATUS_CODES` of `src/linkValidator.ts` line 29. -/
def BROKEN_STATUS_CODES : List Nat := [404, 410]

/-- `isCdnErrorResponse` of `src/linkValidator.ts` lines 47-66: a 403/HTML/XML
response whose body carries a CDN missing-file marker. -/
def isCdnErrorResponse (response : HttpResponse) : Bool :=
  let contentType := response.headers.contentType
  let data := response.body
  if strContains contentType "xml" || strContains contentType "text/html" then
    let lowerData := strLower data
    if strContains lowerData "accessdenied" ||
        strContains lowerData "nosuchkey" ||
        strContains lowerData "not found" ||
        strContains lowerData "does not exist" ||
        strContains lowerData "<error>" ||
        strContains lowerData "the specified key does not exist" then
      true
    else
      false
  else
    false

/-- `new URL(location, url).href` as used by the redirect handler. An absolute
location resolves to itself; relative resolution (not exercised by any claim)
is modelled as concatenation against the base. -/
def resolveLocation (location url : String) : String :=
  if strStarts location "http://" || strStarts location "https://" then location
  else url ++ location

/-- The redirect-following plumbing of `makeRequest`
(`src/linkValidator.ts` lines 97-109) over a deterministic network
`net : String → HttpResponse`, with fuel because the source recursion has no
termination measure (`none` = the fuel ran out). The timeout/error/abort
rejection paths of `makeRequest` surface in the validator as `Thrown` values
(see `LinkValidator.validateUrl`); this definition models the response path.

Line 100 reads `_redirectCount` from `options`, but `options` is a fresh
object constructed inside every call and the recursive call at line 104 does
not pass it on, so the counter read always yields 0 and the increment stored
at line 103 is discarded: that behaviour is transcribed literally below. -/
def makeRequest (net : String → HttpResponse) : Nat → String → Option HttpResponse
  | 0, _ => none
  | fuel + 1, url =>
    let res := net url
    if (300 ≤ res.statusCode ∧ res.statusCode < 400) ∧ res.headers.location.isSome then
      let redirectCount : Nat := 0
      if redirectCount < 5 then
        makeRequest net fuel (resolveLocation (res.headers.location.getD "") url)
      else
        some res
    else
      some res

namespace LinkValidator

/-- `LinkValidator.cacheAndReturn` (`src/linkValidator.ts` lines 270-278). -/
def cacheAndReturn (url : String) (cache : UrlCache) (now : Nat)
    (isValid : Bool) (statusCode : Nat) (statusText : String) :
    ValidationResult × UrlCache :=
  ({ url := url, isValid := isValid, statusCode := some statusCode,
     statusText := some statusText },
   cache.set url
     { isValid := isValid, statusCode := some statusCode,
       statusText := some statusText } now)

/-- `LinkValidator.handleError` (`src/linkValidator.ts` lines 283-303):
normalize a thrown value into a `ValidationResult`, writing every
non-cancelled outcome to the cache. -/
def handleError (url : String) (cache : UrlCache) (now : Nat) (error : Thrown) :
    ValidationResult × UrlCache :=
  match error with
  | .err msg =>
    if msg = "Request cancelled" then
      ({ url := url, isValid := true, error := some "Request cancelled" }, cache)
    else
      let errorMessage :=
        if msg = "Request timeout" then "Request timeout"
        else if strContains msg "ENOTFOUND" then "Domain not found"
        else if strContains msg "ECONNREFUSED" then "Connection refused"
        else if msg = "" then "Network error" else msg
      ({ url := url, isValid := false, error := some errorMessage },
       cache.set url { isValid := false, error := some errorMessage } now)
  | .nonError =>
    ({ url := url, isValid := false, error := some "Unknown error" },
     cache.set url { isValid := false, error := some "Unknown error" } now)

/-- The probe-and-classify body of `LinkValidator.validateUrl`
(`src/linkValidator.ts` lines 218-264), after the cache check: the HEAD
outcome, and on 403/405 escalation the GET outcome, are passed in. -/
def probeAndClassify (url : String) (cache : UrlCache) (now : Nat)
    (headProbe getProbe : Except Thrown HttpResponse) :
    ValidationResult × UrlCache :=
  match headProbe with
  | .error e => handleError url cache now e
  | .ok response =>
    if 200 ≤ response.statusCode ∧ response.statusCode < 400 then
      cacheAndReturn url cache now true response.statusCode response.statusText
    else if BROKEN_STATUS_CODES.contains response.statusCode then
      cacheAndReturn url cache now false response.statusCode response.statusText
    else if response.statusCode = 403 ∨ response.statusCode = 405 then
      match getProbe with
      | .error e => handleError url cache now e
      | .ok response2 =>
        if 200 ≤ response2.statusCode ∧ response2.statusCode < 400 then
          cacheAndReturn url cache now true response2.statusCode response2.statusText
        else if response2.statusCode = 403 then
          if isCdnErrorResponse response2 then
            cacheAndReturn url cache now false response2.statusCode "Not Found (CDN)"
          else
            cacheAndReturn url cache now true response2.statusCode "Protected"
        else
          cacheAndReturn url cache now
            (decide (200 ≤ response2.statusCode ∧ response2.statusCode < 400))
            response2.statusCode response2.statusText
    else
      cacheAndReturn url cache now
        (decide (200 ≤ response.statusCode ∧ response.statusCode < 400))
        response.statusCode response.statusText

/-- `LinkValidator.validateUrl` (`src/linkValidator.ts` lines 197-265):
cache lookup first (which may evict an expired entry), then the probe
classification of `probeAndClassify`. -/
def validateUrl (url : String) (cache : UrlCache) (now : Nat)
    (headProbe getProbe : Except Thrown HttpResponse) :
    ValidationResult × UrlCache :=
  let looked := cache.get url now
  match looked.1 with
  | some cached =>
    ({ url := url, isValid := cached.isValid, statusCode := cached.statusCode,
       statusText := cached.statusText, error := cached.error }, looked.2)
  | none => probeAndClassify url looked.2 now headProbe getProbe

end LinkValidator

/-- The mutable state of a `LinkValidator` instance beyond its configuration:
the shared cache and the abort machinery (`abortController` holds the
generation id of the live controller; `aborted` records the generations whose
`abort()` has been called; `nextGen` supplies fresh generations). -/
structure EngineState where
  cache : UrlCache
  abortController : Option Nat := none
  aborted : List Nat := []
  nextGen : Nat := 0
deriving DecidableEq, Repr

namespace LinkValidator

/-- `LinkValidator.cancel` (`src/linkValidator.ts` lines 187-192): abort the
live controller, if any, and drop it. -/
def cancel (s : EngineState) : EngineState :=
  match s.abortController with
  | some g => { s with aborted := g :: s.aborted, abortController := none }
  | none => s

/-- One insertion step of `new Set(urls)`: add the URL unless already seen. -/
def insertUnique (acc : List String) (u : String) : List String :=
  if acc.contains u then acc else acc ++ [u]

/-- `[...new Set(urls)]`: deduplicate by exact string equality, keeping the
first occurrence of each URL in order. -/
def uniqueUrls (urls : List String) : List String :=
  urls.foldl insertUnique []

/-- The windowed validation loop of `validateUrls`
(`src/linkValidator.ts` lines 320-334), linearized: the fresh signal is never
aborted during a run of the model, so every window executes; `Promise.all`
keeps each window in order, the windows run in sequence, and cache operations
are synchronous and touch only the URL being validated (the deduplicated list
has no repeats), so the loop is a left-to-right traversal threading the
cache. `net` gives each URL its HEAD and GET probe outcomes. -/
def runBatch (net : String → Except Thrown HttpResponse × Except Thrown HttpResponse)
    (now : Nat) : List String → UrlCache → List ValidationResult × UrlCache
  | [], cache => ([], cache)
  | u :: rest, cache =>
    let step := validateUrl u cache now (net u).1 (net u).2
    let tail := runBatch net now rest step.2
    (step.1 :: tail.1, tail.2)

/-- `LinkValidator.validateUrls` (`src/linkValidator.ts` lines 308-337):
empty input returns immediately; otherwise cancel any previous batch, install
a fresh abort controller, deduplicate, and run the windowed loop. -/
def validateUrls (net : String → Except Thrown HttpResponse × Except Thrown HttpResponse)
    (urls : List String) (s : EngineState) (now : Nat) :
    List ValidationResult × EngineState :=
  if urls.length = 0 then ([], s)
  else
    let s1 := cancel s
    let s2 := { s1 with abortController := some s1.nextGen, nextGen := s1.nextGen + 1 }
    let out := runBatch net now (uniqueUrls urls) s2.cache
    (out.1, { s2 with cache := out.2 })

end LinkValidator

/-- The CDN missing-file markers scanned by `isCdnErrorResponse`, as a list
(used to state the claim about the heuristic). -/
def cdnErrorMarkers : List String :=
  ["accessdenied", "nosuchkey", "not found", "does not exist", "<error>",
   "the specified key does not exist"]

/-- Internal consistency of an outcome: a broken status code (404 or 410)
never accompanies `isValid = true`. -/
def consistentOutcome (isValid : Bool) (statusCode : Option Nat) : Prop :=
  statusCode = some 404 ∨ statusCode = some 410 → isValid = false

/-- Every entry stored in the cache is internally consistent. -/
def cacheConsistent (c : UrlCache) : Prop :=
  ∀ p ∈ c.entries, consistentOutcome p.2.isValid p.2.statusCode

/-- A 301 redirect response pointing at `target` (concrete test fixture). -/
def redirectResponse (target : String) : HttpResponse :=
  { statusCode := 301, statusText := "Moved Permanently",
    headers := { location := some target }, body := "" }

/-- A plain 200 response (concrete test fixture). -/
def okResponse : HttpResponse :=
  { statusCode := 200, statusText := "OK", headers := {}, body := "" }

/-- A network with a chain of six 301 redirects
`http://h/0 → http://h/1 → ... → http://h/6` whose final URL answers 200
(concrete test fixture for the redirect bound). -/
def chainNet (u : String) : HttpResponse :=
  if u = "http://h/0" then redirectResponse "http://h/1"
  else if u = "http://h/1" then redirectResponse "http://h/2"
  else if u = "http://h/2" then redirectResponse "http://h/3"
  else if u = "http://h/3" then redirectResponse "http://h/4"
  else if u = "http://h/4" then redirectResponse "http://h/5"
  else if u = "http://h/5" then redirectResponse "http://h/6"
  else okResponse

/-- A plain 404 response (concrete test fixture). -/
def notFoundResponse : HttpResponse :=
  { statusCode := 404, statusText := "Not Found", headers := {}, body := "" }

/-- A HEAD response with status 403 (concrete test fixture). -/
def head403 : HttpResponse :=
  { statusCode := 403, statusText := "Forbidden", headers := {}, body := "" }

/-- A GET response with status 403 and a CloudFront style XML missing-key
body (concrete test fixture). -/
def cdnGet403 : HttpResponse :=
  { statusCode := 403, statusText := "Forbidden",
    headers := { contentType := "application/xml" },
    body := "<Error><Code>NoSuchKey</Code></Error>" }

/-! ## Lemmas about the association-list map -/

theorem mapGet_mem {m : List (String × CacheEntry)} {k : String} {e : CacheEntry}
    (h : mapGet m k = some e) : (k, e) ∈ m := by
  induction m with
  | nil => simp [mapGet] at h
  | cons p rest ih =>
    obtain ⟨k', v⟩ := p
    simp only [mapGet] at h
    by_cases hk : k' = k
    · rw [if_pos hk] at h
      injection h with h
      subst h; subst hk
      exact List.mem_cons_self _ _
    · rw [if_neg hk] at h
      exact List.mem_cons_of_mem _ (ih h)

theorem mem_mapDelete {m : List (String × CacheEntry)} {k : String}
    {p : String × CacheEntry} (h : p ∈ mapDelete m k) : p ∈ m := by
  induction m with
  | nil => simp [mapDelete] at h
  | cons q rest ih =>
    obtain ⟨k', v⟩ := q
    simp only [mapDelete] at h
    by_cases hk : k' = k
    · rw [if_pos hk] at h
      exact List.mem_cons_of_mem _ h
    · rw [if_neg hk] at h
      rcases List.mem_cons.mp h with h | h
      · exact h ▸ List.mem_cons_self _ _
      · exact List.mem_cons_of_mem _ (ih h)

theorem mem_mapSet {m : List (String × CacheEntry)} {k : String} {v : CacheEntry}
    {p : String × CacheEntry} (h : p ∈ mapSet m k v) : p = (k, v) ∨ p ∈ m := by
  induction m with
  | nil => simpa [mapSet] using h
  | cons q rest ih =>
    obtain ⟨k', v'⟩ := q
    simp only [mapSet] at h
    by_cases hk : k' = k
    · rw [if_pos hk] at h
      rcases List.mem_cons.mp h with h | h
      · exact Or.inl h
      · exact Or.inr (List.mem_cons_of_mem _ h)
    · rw [if_neg hk] at h
      rcases List.mem_cons.mp h with h | h
      · exact Or.inr (h ▸ List.mem_cons_self _ _)
      · rcases ih h with h | h
        · exact Or.inl h
        · exact Or.inr (List.mem_cons_of_mem _ h)

/-! ## C3: cache TTL behaviour -/

/-- C3 counterexample: the claim says a cache constructed with `ttl = 0`
treats every entry as always expired (`get` never returns it); but with
`ttl = 0` an entry inserted at time 0 is still returned by a `get` at time 0,
because expiry uses the strict comparison `now - timestamp > ttlMs`. -/
theorem urlCache_zero_ttl_counterexample :
    (((UrlCache.mk' 0).set "u" { isValid := true } 0).get "u" 0).1 =
      some { isValid := true, timestamp := 0 } := by decide

/-- C3 (amended): `get(url)` returns a value iff an entry is present and
`now - insertion_time ≤ ttl`; an expired entry is evicted by the `get` and
nothing is returned; a `get` with no entry present has no side effect. With
`ttl = 0` an entry is expired at every instant strictly after its insertion
time, but is still returned when queried at `now ≤ timestamp`. -/
theorem urlCache_get_ttl (c : UrlCache) (url : String) (now : Nat) :
    ((c.get url now).1.isSome ↔
      ∃ e, mapGet c.entries url = some e ∧ now - e.timestamp ≤ c.ttlMs) ∧
    (mapGet c.entries url = none → c.get url now = (none, c)) ∧
    (∀ e, mapGet c.entries url = some e → c.ttlMs < now - e.timestamp →
      c.get url now = (none, { c with entries := mapDelete c.entries url })) ∧
    (∀ e, mapGet c.entries url = some e → now - e.timestamp ≤ c.ttlMs →
      c.get url now = (some e, c)) := by
  unfold UrlCache.get
  cases h : mapGet c.entries url with
  | none => simp [h]
  | some e =>
    dsimp only
    by_cases hexp : now - e.timestamp > c.ttlMs
    · rw [if_pos hexp]
      refine ⟨?_, by simp, ?_, ?_⟩
      · simp only [Option.isSome_none, Bool.false_eq_true, false_iff]
        rintro ⟨e', he', hfresh⟩
        injection he' with he'
        subst he'
        omega
      · intro e' he' _
        rfl
      · intro e' he' hfresh
        injection he' with he'
        subst he'
        omega
    · rw [if_neg hexp]
      refine ⟨?_, by simp, ?_, ?_⟩
      · simp only [Option.isSome_some, true_iff]
        exact ⟨e, rfl, by omega⟩
      · intro e' he' hstale
        injection he' with he'
        subst he'
        omega
      · intro e' he' _
        injection he' with he'
        subst he'
        rfl

/-- C3 witness: a fresh entry (age 30 s, ttl 1 min) is returned. -/
theorem urlCache_get_ttl_witness :
    ((((UrlCache.mk' 1).set "u" { isValid := true } 0).get "u" 30000)).1.isSome := by
  exact (urlCache_get_ttl (((UrlCache.mk' 1).set "u" { isValid := true } 0)) "u" 30000).1.mpr
    ⟨{ isValid := true, timestamp := 0 }, by decide, by decide⟩

/-! ## C2: the CDN ambiguity resolver -/

/-- C2: `isCdnErrorResponse` returns true for a response iff the content type
contains "xml" or "text/html" and the lowercased body contains at least one
of the six missing-resource markers; every other response yields false. -/
theorem isCdnErrorResponse_iff (response : HttpResponse) :
    isCdnErrorResponse response = true ↔
      ((strContains response.headers.contentType "xml" = true ∨
        strContains response.headers.contentType "text/html" = true) ∧
       ∃ m ∈ cdnErrorMarkers, strContains (strLower response.body) m = true) := by
  unfold isCdnErrorResponse
  dsimp only
  split_ifs with h1 h2 <;>
    simp_all only [cdnErrorMarkers, List.mem_cons, List.not_mem_nil, or_false,
      Bool.or_eq_true, exists_eq_or_imp, exists_eq_left, true_iff, false_iff,
      Bool.false_eq_true, not_and, not_or] <;>
    tauto

/-! ## C7: transport-failure normalization -/

/-- C7 counterexample: the claim says a failure with no message available
yields the generic fallback "Unknown error"; but an `Error` whose message is
the empty string is normalized to "Network error" ("Unknown error" is used
only when the thrown value is not an `Error`). -/
theorem handleError_empty_message_counterexample :
    ((LinkValidator.handleError "http://x" (UrlCache.mk' 5) 0 (.err "")).1).error
        = some "Network error" ∧
    ((LinkValidator.handleError "http://x" (UrlCache.mk' 5) 0 (.err "")).1).error
        ≠ some "Unknown error" := by decide

/-- C7 (amended): every transport failure is normalized into a
`ValidationResult` (the function is total and never re-raises); a
non-cancelled failure yields `isValid = false` and is written to the cache;
the message is "Request timeout" for a timeout, "Domain not found" for a DNS
failure, "Connection refused" for a refused connection, otherwise the thrown
message itself, with fallback "Network error" for an `Error` carrying an
empty message and "Unknown error" for a thrown non-`Error` value. -/
theorem handleError_classification (url : String) (c : UrlCache) (now : Nat)
    (e : Thrown) (hnc : e ≠ .err "Request cancelled") :
    ((LinkValidator.handleError url c now e).1).isValid = false ∧
    ((LinkValidator.handleError url c now e).1).url = url ∧
    (LinkValidator.handleError url c now e).2 =
      c.set url { isValid := false,
                  error := ((LinkValidator.handleError url c now e).1).error } now ∧
    (e = .err "Request timeout" →
      ((LinkValidator.handleError url c now e).1).error = some "Request timeout") ∧
    (∀ msg, e = .err msg → msg ≠ "Request timeout" →
      strContains msg "ENOTFOUND" = true →
      ((LinkValidator.handleError url c now e).1).error = some "Domain not found") ∧
    (∀ msg, e = .err msg → msg ≠ "Request timeout" →
      strContains msg "ENOTFOUND" = false → strContains msg "ECONNREFUSED" = true →
      ((LinkValidator.handleError url c now e).1).error = some "Connection refused") ∧
    (∀ msg, e = .err msg → msg ≠ "Request timeout" →
      strContains msg "ENOTFOUND" = false → strContains msg "ECONNREFUSED" = false →
      msg ≠ "" →
      ((LinkValidator.handleError url c now e).1).error = some msg) ∧
    (e = .err "" →
      ((LinkValidator.handleError url c now e).1).error = some "Network error") ∧
    (e = .nonError →
      ((LinkValidator.handleError url c now e).1).error = some "Unknown error") := by
  cases e with
  | nonError =>
    refine ⟨rfl, rfl, rfl, by simp, by simp, by simp, by simp, by simp, fun _ => rfl⟩
  | err msg =>
    have hm : msg ≠ "Request cancelled" := by
      intro h; exact hnc (by rw [h])
    unfold LinkValidator.handleError
    dsimp only
    rw [if_neg hm]
    refine ⟨rfl, rfl, rfl, ?_, ?_, ?_, ?_, ?_, by simp⟩
    · intro h
      injection h with h
      subst h
      rfl
    · intro msg' h hnt hdns
      injection h with h
      subst h
      rw [if_neg hnt, if_pos hdns]
    · intro msg' h hnt hdns href
      injection h with h
      subst h
      rw [if_neg hnt, if_neg (by simp [hdns]), if_pos href]
    · intro msg' h hnt hdns href hne
      injection h with h
      subst h
      rw [if_neg hnt, if_neg (by simp [hdns]), if_neg (by simp [href]), if_neg hne]
    · intro h
      injection h with h
      subst h
      rfl

/-- C7 witness: a DNS failure at a concrete URL is normalized to
`isValid = false` with message "Domain not found". -/
theorem handleError_classification_witness :
    ((LinkValidator.handleError "http://x" (UrlCache.mk' 5) 0
        (.err "getaddrinfo ENOTFOUND x")).1).error = some "Domain not found" :=
  ((handleError_classification "http://x" (UrlCache.mk' 5) 0
      (.err "getaddrinfo ENOTFOUND x") (by decide)).2.2.2.2.1)
    "getaddrinfo ENOTFOUND x" rfl (by decide) (by decide)

/-! ## C5: the redirect bound -/

/-- C5: on the chain of six 301 redirects
`http://h/0 → ... → http://h/6`, the probe does NOT stop after five
redirects: because `makeRequest` rebuilds `options` on every recursive call,
the redirect counter always reads 0, so all six redirects are followed and
the 200 answer of the seventh URL is returned instead of the sixth hop's own
301 response. This contradicts the documented 5-redirect bound
("Handle redirects (up to 5)", `src/linkValidator.ts` line 98). -/
theorem makeRequest_redirect_bound_violated :
    makeRequest chainNet 10 "http://h/0" = some okResponse ∧
    makeRequest chainNet 10 "http://h/0" ≠ some (redirectResponse "http://h/6") := by
  decide

/-! ## C8: empty input -/

/-- C8: a batch over the empty list returns the empty result list at once,
with the whole engine state (cache included) untouched, for every network. -/
theorem validateUrls_empty (net : String → Except Thrown HttpResponse × Except Thrown HttpResponse)
    (s : EngineState) (now : Nat) :
    LinkValidator.validateUrls net [] s now = ([], s) := rfl

/-! ## C10: empty input does not cancel the previous batch -/

/-- C10: a `validateUrls` call with an empty input list returns before the
`cancel()` call, so the previous batch's abort controller and the set of
aborted generations are left exactly as they were. -/
theorem validateUrls_empty_preserves_abort
    (net : String → Except Thrown HttpResponse × Except Thrown HttpResponse)
    (s : EngineState) (now : Nat) :
    (LinkValidator.validateUrls net [] s now).2.abortController = s.abortController ∧
    (LinkValidator.validateUrls net [] s now).2.aborted = s.aborted :=
  ⟨rfl, rfl⟩

/-! ## Helper lemmas about the validator -/

theorem validateUrl_miss (url : String) (c : UrlCache) (now : Nat)
    (headProbe getProbe : Except Thrown HttpResponse)
    (hmiss : mapGet c.entries url = none) :
    LinkValidator.validateUrl url c now headProbe getProbe =
      LinkValidator.probeAndClassify url c now headProbe getProbe := by
  unfold LinkValidator.validateUrl UrlCache.get
  rw [hmiss]

theorem handleError_writethrough (url : String) (c : UrlCache) (now : Nat)
    (e : Thrown) :
    (((LinkValidator.handleError url c now e).1).error = some "Request cancelled" →
      ((LinkValidator.handleError url c now e).1).isValid = true ∧
      (LinkValidator.handleError url c now e).2 = c) ∧
    (((LinkValidator.handleError url c now e).1).error ≠ some "Request cancelled" →
      (LinkValidator.handleError url c now e).2 =
        c.set url
          { isValid := ((LinkValidator.handleError url c now e).1).isValid,
            statusCode := ((LinkValidator.handleError url c now e).1).statusCode,
            statusText := ((LinkValidator.handleError url c now e).1).statusText,
            error := ((LinkValidator.handleError url c now e).1).error } now) := by
  cases e with
  | nonError =>
    refine ⟨?_, fun _ => rfl⟩
    intro h
    simp [LinkValidator.handleError] at h
  | err msg =>
    by_cases hm : msg = "Request cancelled"
    · subst hm
      exact ⟨fun _ => ⟨rfl, rfl⟩, fun h => absurd rfl h⟩
    · unfold LinkValidator.handleError
      dsimp only
      rw [if_neg hm]
      refine ⟨?_, fun _ => rfl⟩
      intro h
      dsimp only at h
      injection h with h
      split_ifs at h <;> first | exact absurd h (by decide) | exact absurd h hm

theorem probeAndClassify_writethrough (url : String) (c : UrlCache) (now : Nat)
    (headProbe getProbe : Except Thrown HttpResponse) :
    (((LinkValidator.probeAndClassify url c now headProbe getProbe).1).error =
        some "Request cancelled" →
      ((LinkValidator.probeAndClassify url c now headProbe getProbe).1).isValid = true ∧
      (LinkValidator.probeAndClassify url c now headProbe getProbe).2 = c) ∧
    (((LinkValidator.probeAndClassify url c now headProbe getProbe).1).error ≠
        some "Request cancelled" →
      (LinkValidator.probeAndClassify url c now headProbe getProbe).2 =
        c.set url
          { isValid := ((LinkValidator.probeAndClassify url c now headProbe getProbe).1).isValid,
            statusCode := ((LinkValidator.probeAndClassify url c now headProbe getProbe).1).statusCode,
            statusText := ((LinkValidator.probeAndClassify url c now headProbe getProbe).1).statusText,
            error := ((LinkValidator.probeAndClassify url c now headProbe getProbe).1).error } now) := by
  cases headProbe with
  | error e => exact handleError_writethrough url c now e
  | ok response =>
    unfold LinkValidator.probeAndClassify
    dsimp only
    split_ifs with h1 h2 h3
    · exact ⟨by intro h; simp [LinkValidator.cacheAndReturn] at h, fun _ => rfl⟩
    · exact ⟨by intro h; simp [LinkValidator.cacheAndReturn] at h, fun _ => rfl⟩
    · cases getProbe with
      | error e => exact handleError_writethrough url c now e
      | ok response2 =>
        dsimp only
        split_ifs with h4 h5 h6
        · exact ⟨by intro h; simp [LinkValidator.cacheAndReturn] at h, fun _ => rfl⟩
        · exact ⟨by intro h; simp [LinkValidator.cacheAndReturn] at h, fun _ => rfl⟩
        · exact ⟨by intro h; simp [LinkValidator.cacheAndReturn] at h, fun _ => rfl⟩
        · exact ⟨by intro h; simp [LinkValidator.cacheAndReturn] at h, fun _ => rfl⟩
    · exact ⟨by intro h; simp [LinkValidator.cacheAndReturn] at h, fun _ => rfl⟩

/-! ## C4: cancellation outcomes and write-through -/

/-- C4: on a cache miss, a validation whose HEAD probe (or whose escalated
GET probe, after a HEAD 403/405) is cancelled returns
`isValid = true, error = "Request cancelled"` and leaves the cache exactly as
it was; conversely every terminal outcome that is not the cancelled one is
written to the cache (with exactly the outcome's fields) before being
returned. -/
theorem validateUrl_cancellation (url : String) (c : UrlCache) (now : Nat)
    (headProbe getProbe : Except Thrown HttpResponse)
    (hmiss : mapGet c.entries url = none) :
    (headProbe = .error (.err "Request cancelled") →
      LinkValidator.validateUrl url c now headProbe getProbe =
        ({ url := url, isValid := true, error := some "Request cancelled" }, c)) ∧
    (∀ hr, headProbe = .ok hr → (hr.statusCode = 403 ∨ hr.statusCode = 405) →
      getProbe = .error (.err "Request cancelled") →
      LinkValidator.validateUrl url c now headProbe getProbe =
        ({ url := url, isValid := true, error := some "Request cancelled" }, c)) ∧
    (((LinkValidator.validateUrl url c now headProbe getProbe).1).error ≠
        some "Request cancelled" →
      (LinkValidator.validateUrl url c now headProbe getProbe).2 =
        c.set url
          { isValid := ((LinkValidator.validateUrl url c now headProbe getProbe).1).isValid,
            statusCode := ((LinkValidator.validateUrl url c now headProbe getProbe).1).statusCode,
            statusText := ((LinkValidator.validateUrl url c now headProbe getProbe).1).statusText,
            error := ((LinkValidator.validateUrl url c now headProbe getProbe).1).error } now) := by
  rw [validateUrl_miss url c now headProbe getProbe hmiss]
  refine ⟨?_, ?_, (probeAndClassify_writethrough url c now headProbe getProbe).2⟩
  · rintro rfl
    rfl
  · rintro hr rfl h403 rfl
    unfold LinkValidator.probeAndClassify
    dsimp only
    rw [if_neg (by rcases h403 with h | h <;> omega),
      if_neg (by rcases h403 with h | h <;> simp [h, BROKEN_STATUS_CODES]),
      if_pos h403]
    rfl

/-- C4 witness: a cancelled HEAD probe at a concrete URL with an empty cache
yields the cancelled outcome and an unchanged cache. -/
theorem validateUrl_cancellation_witness :
    LinkValidator.validateUrl "http://a" (UrlCache.mk' 5) 0
        (.error (.err "Request cancelled")) (.ok okResponse) =
      ({ url := "http://a", isValid := true, error := some "Request cancelled" },
       UrlCache.mk' 5) :=
  (validateUrl_cancellation "http://a" (UrlCache.mk' 5) 0
      (.error (.err "Request cancelled")) (.ok okResponse) rfl).1 rfl

theorem probeAndClassify_table (url : String) (c : UrlCache) (now : Nat)
    (head g : HttpResponse) :
    (200 ≤ head.statusCode ∧ head.statusCode < 400 →
      ((LinkValidator.probeAndClassify url c now (.ok head) (.ok g)).1).isValid = true) ∧
    (head.statusCode = 404 ∨ head.statusCode = 410 →
      ((LinkValidator.probeAndClassify url c now (.ok head) (.ok g)).1).isValid = false ∧
      ((LinkValidator.probeAndClassify url c now (.ok head) (.ok g)).1).statusCode =
        some head.statusCode) ∧
    ((head.statusCode = 403 ∨ head.statusCode = 405) →
      ((200 ≤ g.statusCode ∧ g.statusCode < 400 →
        ((LinkValidator.probeAndClassify url c now (.ok head) (.ok g)).1).isValid = true) ∧
       (g.statusCode = 403 → isCdnErrorResponse g = true →
        ((LinkValidator.probeAndClassify url c now (.ok head) (.ok g)).1).isValid = false ∧
        ((LinkValidator.probeAndClassify url c now (.ok head) (.ok g)).1).statusText =
          some "Not Found (CDN)") ∧
       (g.statusCode = 403 → isCdnErrorResponse g = false →
        ((LinkValidator.probeAndClassify url c now (.ok head) (.ok g)).1).isValid = true ∧
        ((LinkValidator.probeAndClassify url c now (.ok head) (.ok g)).1).statusText =
          some "Protected") ∧
       (¬(200 ≤ g.statusCode ∧ g.statusCode < 400) → g.statusCode ≠ 403 →
        (((LinkValidator.probeAndClassify url c now (.ok head) (.ok g)).1).isValid = true ↔
          200 ≤ g.statusCode ∧ g.statusCode < 400)))) ∧
    (¬(200 ≤ head.statusCode ∧ head.statusCode < 400) →
     head.statusCode ≠ 404 → head.statusCode ≠ 410 →
     head.statusCode ≠ 403 → head.statusCode ≠ 405 →
      (((LinkValidator.probeAndClassify url c now (.ok head) (.ok g)).1).isValid = true ↔
        200 ≤ head.statusCode ∧ head.statusCode < 400)) := by
  unfold LinkValidator.probeAndClassify
  dsimp only
  refine ⟨?_, ?_, ?_, ?_⟩
  · intro h1
    rw [if_pos h1]
    rfl
  · intro h
    rw [if_neg (by rcases h with h | h <;> omega),
      if_pos (by rcases h with h | h <;> simp [h, BROKEN_STATUS_CODES])]
    exact ⟨rfl, rfl⟩
  · intro h403
    rw [if_neg (by rcases h403 with h | h <;> omega),
      if_neg (by rcases h403 with h | h <;> simp [h, BROKEN_STATUS_CODES]),
      if_pos h403]
    refine ⟨?_, ?_, ?_, ?_⟩
    · intro hg
      rw [if_pos hg]
      rfl
    · intro hg hcdn
      rw [if_neg (by rw [hg]; omega), if_pos hg, if_pos hcdn]
      exact ⟨rfl, rfl⟩
    · intro hg hcdn
      rw [if_neg (by rw [hg]; omega), if_pos hg, if_neg (by simp [hcdn])]
      exact ⟨rfl, rfl⟩
    · intro hno hnot403
      rw [if_neg hno, if_neg hnot403]
      simp [LinkValidator.cacheAndReturn]
  · intro h1 h404 h410 h403 h405
    rw [if_neg h1,
      if_neg (by simp [BROKEN_STATUS_CODES, h404, h410]),
      if_neg (by rintro (h | h); exacts [h403 h, h405 h])]
    simp [LinkValidator.cacheAndReturn]

/-- C1: for a URL validated against the probes (cache miss, no transport
failure), the outcome follows the status classification table: HEAD status in
[200,400) is valid; HEAD 404/410 is broken carrying that status code; HEAD
403/405 escalates to the GET probe, after which GET in [200,400) is valid,
GET 403 with a CDN missing-pattern match is broken with message
"Not Found (CDN)", GET 403 without a match is valid with message "Protected",
and any other GET status follows the general rule (valid iff the status is in
[200,400)); any other HEAD status follows the same general rule. -/
theorem validateUrl_classification (url : String) (c : UrlCache) (now : Nat)
    (head g : HttpResponse) (hmiss : mapGet c.entries url = none) :
    (200 ≤ head.statusCode ∧ head.statusCode < 400 →
      ((LinkValidator.validateUrl url c now (.ok head) (.ok g)).1).isValid = true) ∧
    (head.statusCode = 404 ∨ head.statusCode = 410 →
      ((LinkValidator.validateUrl url c now (.ok head) (.ok g)).1).isValid = false ∧
      ((LinkValidator.validateUrl url c now (.ok head) (.ok g)).1).statusCode =
        some head.statusCode) ∧
    ((head.statusCode = 403 ∨ head.statusCode = 405) →
      ((200 ≤ g.statusCode ∧ g.statusCode < 400 →
        ((LinkValidator.validateUrl url c now (.ok head) (.ok g)).1).isValid = true) ∧
       (g.statusCode = 403 → isCdnErrorResponse g = true →
        ((LinkValidator.validateUrl url c now (.ok head) (.ok g)).1).isValid = false ∧
        ((LinkValidator.validateUrl url c now (.ok head) (.ok g)).1).statusText =
          some "Not Found (CDN)") ∧
       (g.statusCode = 403 → isCdnErrorResponse g = false →
        ((LinkValidator.validateUrl url c now (.ok head) (.ok g)).1).isValid = true ∧
        ((LinkValidator.validateUrl url c now (.ok head) (.ok g)).1).statusText =
          some "Protected") ∧
       (¬(200 ≤ g.statusCode ∧ g.statusCode < 400) → g.statusCode ≠ 403 →
        (((LinkValidator.validateUrl url c now (.ok head) (.ok g)).1).isValid = true ↔
          200 ≤ g.statusCode ∧ g.statusCode < 400)))) ∧
    (¬(200 ≤ head.statusCode ∧ head.statusCode < 400) →
     head.statusCode ≠ 404 → head.statusCode ≠ 410 →
     head.statusCode ≠ 403 → head.statusCode ≠ 405 →
      (((LinkValidator.validateUrl url c now (.ok head) (.ok g)).1).isValid = true ↔
        200 ≤ head.statusCode ∧ head.statusCode < 400)) := by
  rw [validateUrl_miss url c now (.ok head) (.ok g) hmiss]
  exact probeAndClassify_table url c now head g

/-- C1 witness: HEAD 403 followed by GET 403 with a CloudFront XML NoSuchKey
body classifies the URL as broken with message "Not Found (CDN)". -/
theorem validateUrl_classification_witness :
    ((LinkValidator.validateUrl "http://a" (UrlCache.mk' 5) 0
        (.ok head403) (.ok cdnGet403)).1).isValid = false ∧
    ((LinkValidator.validateUrl "http://a" (UrlCache.mk' 5) 0
        (.ok head403) (.ok cdnGet403)).1).statusText = some "Not Found (CDN)" :=
  ((validateUrl_classification "http://a" (UrlCache.mk' 5) 0 head403 cdnGet403
      rfl).2.2.1 (Or.inl rfl)).2.1 rfl (by decide)

/-! ## C9: internal consistency of outcomes -/

theorem cacheConsistent_set {c : UrlCache} (hc : cacheConsistent c)
    {d : CacheData} (hd : consistentOutcome d.isValid d.statusCode)
    (url : String) (now : Nat) : cacheConsistent (c.set url d now) := by
  intro p hp
  rcases mem_mapSet hp with h | h
  · subst h
    exact hd
  · exact hc p h

theorem handleError_consistent (url : String) (c : UrlCache) (now : Nat)
    (e : Thrown) (hc : cacheConsistent c) :
    consistentOutcome ((LinkValidator.handleError url c now e).1).isValid
      ((LinkValidator.handleError url c now e).1).statusCode ∧
    cacheConsistent (LinkValidator.handleError url c now e).2 := by
  cases e with
  | nonError => exact ⟨fun _ => rfl, cacheConsistent_set hc (fun _ => rfl) url now⟩
  | err msg =>
    by_cases hm : msg = "Request cancelled"
    · subst hm
      refine ⟨?_, hc⟩
      rintro (h | h) <;> exact Option.noConfusion h
    · unfold LinkValidator.handleError
      dsimp only
      rw [if_neg hm]
      exact ⟨fun _ => rfl, cacheConsistent_set hc (fun _ => rfl) url now⟩

theorem cacheAndReturn_consistent (url : String) (c : UrlCache) (now : Nat)
    (v : Bool) (code : Nat) (text : String) (hc : cacheConsistent c)
    (hcode : v = true → code ≠ 404 ∧ code ≠ 410) :
    consistentOutcome ((LinkValidator.cacheAndReturn url c now v code text).1).isValid
      ((LinkValidator.cacheAndReturn url c now v code text).1).statusCode ∧
    cacheConsistent (LinkValidator.cacheAndReturn url c now v code text).2 := by
  have hd : consistentOutcome v (some code) := by
    cases v with
    | false => intro _; rfl
    | true =>
      intro h
      exfalso
      rcases h with h | h
      · injection h with h
        exact (hcode rfl).1 h
      · injection h with h
        exact (hcode rfl).2 h
  exact ⟨hd, cacheConsistent_set hc hd url now⟩

theorem probeAndClassify_consistent (url : String) (c : UrlCache) (now : Nat)
    (headProbe getProbe : Except Thrown HttpResponse) (hc : cacheConsistent c) :
    consistentOutcome ((LinkValidator.probeAndClassify url c now headProbe getProbe).1).isValid
      ((LinkValidator.probeAndClassify url c now headProbe getProbe).1).statusCode ∧
    cacheConsistent (LinkValidator.probeAndClassify url c now headProbe getProbe).2 := by
  cases headProbe with
  | error e => exact handleError_consistent url c now e hc
  | ok response =>
    unfold LinkValidator.probeAndClassify
    dsimp only
    split_ifs with h1 h2 h3
    · exact cacheAndReturn_consistent url c now _ _ _ hc (fun _ => by omega)
    · exact cacheAndReturn_consistent url c now _ _ _ hc (fun h => Bool.noConfusion h)
    · cases getProbe with
      | error e => exact handleError_consistent url c now e hc
      | ok response2 =>
        dsimp only
        split_ifs with h4 h5 h6
        · exact cacheAndReturn_consistent url c now _ _ _ hc (fun _ => by omega)
        · exact cacheAndReturn_consistent url c now _ _ _ hc (fun h => Bool.noConfusion h)
        · exact cacheAndReturn_consistent url c now _ _ _ hc
            (fun _ => by rw [h5]; exact ⟨by omega, by omega⟩)
        · refine cacheAndReturn_consistent url c now _ _ _ hc (fun h => ?_)
          have := of_decide_eq_true h
          omega
    · refine cacheAndReturn_consistent url c now _ _ _ hc (fun h => ?_)
      have := of_decide_eq_true h
      omega

theorem validateUrl_consistent (url : String) (c : UrlCache) (now : Nat)
    (headProbe getProbe : Except Thrown HttpResponse) (hc : cacheConsistent c) :
    consistentOutcome ((LinkValidator.validateUrl url c now headProbe getProbe).1).isValid
      ((LinkValidator.validateUrl url c now headProbe getProbe).1).statusCode ∧
    cacheConsistent (LinkValidator.validateUrl url c now headProbe getProbe).2 := by
  unfold LinkValidator.validateUrl UrlCache.get
  cases hres : mapGet c.entries url with
  | none =>
    dsimp only
    exact probeAndClassify_consistent url c now headProbe getProbe hc
  | some e =>
    dsimp only
    by_cases hexp : now - e.timestamp > c.ttlMs
    · rw [if_pos hexp]
      dsimp only
      refine probeAndClassify_consistent url _ now headProbe getProbe ?_
      intro p hp
      exact hc p (mem_mapDelete hp)
    · rw [if_neg hexp]
      dsimp only
      exact ⟨hc (url, e) (mapGet_mem hres), hc⟩

theorem runBatch_consistent
    (net : String → Except Thrown HttpResponse × Except Thrown HttpResponse)
    (now : Nat) :
    ∀ (l : List String) (c : UrlCache), cacheConsistent c →
      (∀ r ∈ (LinkValidator.runBatch net now l c).1,
        consistentOutcome r.isValid r.statusCode) ∧
      cacheConsistent (LinkValidator.runBatch net now l c).2 := by
  intro l
  induction l with
  | nil =>
    intro c hc
    exact ⟨by intro r hr; simp [LinkValidator.runBatch] at hr, hc⟩
  | cons u rest ih =>
    intro c hc
    have h1 := validateUrl_consistent u c now (net u).1 (net u).2 hc
    have h2 := ih _ h1.2
    constructor
    · intro r hr
      simp only [LinkValidator.runBatch] at hr
      rcases List.mem_cons.mp hr with h | h
      · subst h
        exact h1.1
      · exact h2.1 r h
    · simp only [LinkValidator.runBatch]
      exact h2.2

theorem cancel_cache (s : EngineState) :
    (LinkValidator.cancel s).cache = s.cache := by
  unfold LinkValidator.cancel
  cases s.abortController <;> rfl

/-- C9: every outcome the engine produces (fresh or from a cache hit) is
internally consistent: provided every cached entry is consistent, no batch
result ever pairs `isValid = true` with a broken status code (404 or 410),
and the cache stays consistent. -/
theorem engine_outcomes_consistent
    (net : String → Except Thrown HttpResponse × Except Thrown HttpResponse)
    (urls : List String) (s : EngineState) (now : Nat)
    (hc : cacheConsistent s.cache) :
    (∀ r ∈ (LinkValidator.validateUrls net urls s now).1,
      (r.statusCode = some 404 ∨ r.statusCode = some 410) → r.isValid = false) ∧
    cacheConsistent (LinkValidator.validateUrls net urls s now).2.cache := by
  unfold LinkValidator.validateUrls
  by_cases h : urls.length = 0
  · rw [if_pos h]
    exact ⟨by intro r hr; simp at hr, hc⟩
  · rw [if_neg h]
    dsimp only
    rw [cancel_cache]
    exact runBatch_consistent net now (LinkValidator.uniqueUrls urls) s.cache hc

/-- C9 witness: in a concrete one-URL batch over an empty (hence consistent)
cache whose probe answers 404, the produced outcome carries
`isValid = false`. -/
theorem engine_outcomes_consistent_witness :
    (((LinkValidator.validateUrls (fun _ => (.ok notFoundResponse, .ok okResponse))
        ["http://a"] { cache := UrlCache.mk' 5 } 0).1).headI).isValid = false :=
  (engine_outcomes_consistent (fun _ => (.ok notFoundResponse, .ok okResponse))
      ["http://a"] { cache := UrlCache.mk' 5 } 0
      (by intro p hp; simp [UrlCache.mk'] at hp)).1 _ (by decide) (by decide)

/-! ## C6: deduplication before dispatch -/

theorem handleError_url (url : String) (c : UrlCache) (now : Nat) (e : Thrown) :
    ((LinkValidator.handleError url c now e).1).url = url := by
  cases e with
  | nonError => rfl
  | err msg =>
    unfold LinkValidator.handleError
    dsimp only
    split_ifs <;> rfl

theorem probeAndClassify_url (url : String) (c : UrlCache) (now : Nat)
    (headProbe getProbe : Except Thrown HttpResponse) :
    ((LinkValidator.probeAndClassify url c now headProbe getProbe).1).url = url := by
  cases headProbe with
  | error e => exact handleError_url url c now e
  | ok response =>
    unfold LinkValidator.probeAndClassify
    dsimp only
    split_ifs with h1 h2 h3
    · rfl
    · rfl
    · cases getProbe with
      | error e => exact handleError_url url c now e
      | ok response2 =>
        dsimp only
        split_ifs <;> rfl
    · rfl

theorem validateUrl_url (url : String) (c : UrlCache) (now : Nat)
    (headProbe getProbe : Except Thrown HttpResponse) :
    ((LinkValidator.validateUrl url c now headProbe getProbe).1).url = url := by
  unfold LinkValidator.validateUrl UrlCache.get
  cases mapGet c.entries url with
  | none => exact probeAndClassify_url url c now headProbe getProbe
  | some e =>
    dsimp only
    split_ifs
    · exact probeAndClassify_url url _ now headProbe getProbe
    · rfl

theorem runBatch_urls
    (net : String → Except Thrown HttpResponse × Except Thrown HttpResponse)
    (now : Nat) :
    ∀ (l : List String) (c : UrlCache),
      ((LinkValidator.runBatch net now l c).1).map (fun r => r.url) = l := by
  intro l
  induction l with
  | nil => intro c; rfl
  | cons u rest ih =>
    intro c
    simp only [LinkValidator.runBatch, List.map_cons, validateUrl_url, ih]

theorem mem_insertUnique (acc : List String) (u v : String) :
    v ∈ LinkValidator.insertUnique acc u ↔ v ∈ acc ∨ v = u := by
  unfold LinkValidator.insertUnique
  split_ifs with h
  · have hu : u ∈ acc := by simpa using h
    constructor
    · exact Or.inl
    · rintro (hv | rfl)
      · exact hv
      · exact hu
  · simp

theorem insertUnique_nodup {acc : List String} (h : acc.Nodup) (u : String) :
    (LinkValidator.insertUnique acc u).Nodup := by
  unfold LinkValidator.insertUnique
  split_ifs with hc
  · exact h
  · have hu : u ∉ acc := by simpa using hc
    exact h.append (List.nodup_singleton u)
      (by intro a ha hmem; rw [List.mem_singleton] at hmem; subst hmem; exact hu ha)

theorem foldl_insertUnique_nodup (l : List String) :
    ∀ acc : List String, acc.Nodup →
      (l.foldl LinkValidator.insertUnique acc).Nodup := by
  induction l with
  | nil => intro acc h; exact h
  | cons u rest ih => intro acc h; exact ih _ (insertUnique_nodup h u)

theorem mem_foldl_insertUnique (l : List String) :
    ∀ (acc : List String) (v : String),
      v ∈ l.foldl LinkValidator.insertUnique acc ↔ v ∈ acc ∨ v ∈ l := by
  induction l with
  | nil => intro acc v; simp
  | cons u rest ih =>
    intro acc v
    rw [List.foldl_cons, ih, mem_insertUnique]
    simp only [List.mem_cons]
    tauto

/-- C6: `validateUrls` deduplicates by exact string equality before
dispatch: the batch output carries exactly the deduplicated input URLs, in
first-occurrence order and without repeats (so each distinct URL is
validated exactly once), the deduplicated list covers exactly the input
URLs, and in particular a batch over `[u, u, u]` yields outcomes whose URL
list is exactly `[u]`. -/
theorem validateUrls_dedup
    (net : String → Except Thrown HttpResponse × Except Thrown HttpResponse)
    (urls : List String) (s : EngineState) (now : Nat) :
    (((LinkValidator.validateUrls net urls s now).1).map (fun r => r.url) =
      LinkValidator.uniqueUrls urls) ∧
    (LinkValidator.uniqueUrls urls).Nodup ∧
    (∀ u, u ∈ LinkValidator.uniqueUrls urls ↔ u ∈ urls) ∧
    (∀ u, ((LinkValidator.validateUrls net [u, u, u] s now).1).map (fun r => r.url) =
      [u]) := by
  refine ⟨?_, ?_, ?_, ?_⟩
  · unfold LinkValidator.validateUrls
    by_cases h : urls.length = 0
    · rw [if_pos h]
      rw [List.length_eq_zero.mp h]
      rfl
    · rw [if_neg h]
      dsimp only
      exact runBatch_urls net now _ _
  · exact foldl_insertUnique_nodup urls [] List.nodup_nil
  · intro u
    unfold LinkValidator.uniqueUrls
    rw [mem_foldl_insertUnique]
    simp
  · intro u
    have huniq : LinkValidator.uniqueUrls [u, u, u] = [u] := by
      simp [LinkValidator.uniqueUrls, LinkValidator.insertUnique]
    unfold LinkValidator.validateUrls
    rw [if_neg (by simp)]
    dsimp only
    rw [huniq]
    exact runBatch_urls net now [u] _
